import Mathlib

/-!
Verification development for the car-salesman inventory engine
(`enhanced_inventory_manager.py`): a shallow embedding of the record
store, query parser, filter stage, relevance scorer, result assembler,
and the reservation operation, together with theorems about the
behaviours the specification claims.

Strings are modelled as `List Char`.  Python integers are `Int` (row
fields) or `Nat` (digit groups extracted from queries).  The float
`relevance_score` is modelled as `ℚ`: every arithmetic operation the
scorer performs is exact on the values it produces, and the ordering
facts proved below depend only on the ordering of the computed scores.
-/

abbrev Chars := List Char

/-- Models Python `str.lower()` on one character, for the character
repertoire this system uses (ASCII plus the Spanish accented letters
appearing in the vocabulary tables). -/
def pyLowerChar (c : Char) : Char :=
  if c = 'Á' then 'á' else if c = 'É' then 'é' else if c = 'Í' then 'í'
  else if c = 'Ó' then 'ó' else if c = 'Ú' then 'ú' else if c = 'Ñ' then 'ñ'
  else if c = 'Ü' then 'ü' else c.toLower

/-- Models Python `str.upper()` on one character (same repertoire). -/
def pyUpperChar (c : Char) : Char :=
  if c = 'á' then 'Á' else if c = 'é' then 'É' else if c = 'í' then 'Í'
  else if c = 'ó' then 'Ó' else if c = 'ú' then 'Ú' else if c = 'ñ' then 'Ñ'
  else if c = 'ü' then 'Ü' else c.toUpper

/-- Models Python `str.lower()`. -/
def pyLower (s : Chars) : Chars := s.map pyLowerChar

/-- Models Python `str.capitalize()`: first character uppercased, the
rest lowercased. -/
def pyCapitalize : Chars → Chars
  | [] => []
  | c :: t => pyUpperChar c :: pyLower t

/-- Models Python `str.title()`: the first letter of every alphabetic
run is uppercased, the others lowercased. -/
def pyTitleAux : Bool → Chars → Chars
  | _, [] => []
  | prevAlpha, c :: t =>
    (if c.isAlpha && !prevAlpha then pyUpperChar c
     else if c.isAlpha then pyLowerChar c else c) :: pyTitleAux c.isAlpha t

def pyTitle (s : Chars) : Chars := pyTitleAux false s

/-- Models Python `str.strip()`: leading and trailing whitespace
removed. -/
def pyStrip (s : Chars) : Chars :=
  ((s.dropWhile Char.isWhitespace).reverse.dropWhile Char.isWhitespace).reverse

/-- Models Python `str.split()` with no argument: maximal runs of
non-whitespace characters, empty pieces dropped. -/
def splitWsAux : Chars → Chars → List Chars → List Chars
  | [], cur, acc => if cur.isEmpty then acc else cur.reverse :: acc
  | c :: t, cur, acc =>
    if c.isWhitespace then
      splitWsAux t [] (if cur.isEmpty then acc else cur.reverse :: acc)
    else
      splitWsAux t (c :: cur) acc

def splitWs (s : Chars) : List Chars := (splitWsAux s [] []).reverse

/-- Models Python `str.split(',')`: split at every comma, empty pieces
kept (so the result always has at least one element). -/
def splitComma : Chars → List Chars
  | [] => [[]]
  | c :: t =>
    if c = ',' then [] :: splitComma t
    else
      match splitComma t with
      | h :: r => (c :: h) :: r
      | [] => [[c]]

/-- Models `' '.join(parts)`. -/
def joinSpace : List Chars → Chars
  | [] => []
  | [p] => p
  | p :: t => p ++ ' ' :: joinSpace t

/-- Models `', '.join(parts)`. -/
def joinCommaSpace : List Chars → Chars
  | [] => []
  | [p] => p
  | p :: t => p ++ ',' :: ' ' :: joinCommaSpace t

/-- Value of a run of decimal digits, as Python `int()` computes it. -/
def digitsToNat (ds : Chars) : Nat :=
  ds.foldl (fun a c => a * 10 + (c.toNat - '0'.toNat)) 0

/-- Decimal rendering of a natural number (Python `str`). -/
def natChars (n : Nat) : Chars := (Nat.repr n).toList

/-- Decimal rendering of an integer (Python `str`). -/
def intChars (n : Int) : Chars := (Int.repr n).toList

/-- Models Python's substring test `needle in hay`. -/
def containsSub (needle : Chars) (hay : Chars) : Bool :=
  needle.isPrefixOf hay ||
    match hay with
    | [] => false
    | _ :: t => containsSub needle t

/-! ### A miniature regular-expression facility

The Python code only ever matches patterns of two shapes against the
lowercased query: `LIT(\d+)` optionally followed by a literal suffix,
and `LIT1(\d+)LIT2(\d+)`.  `re.search` semantics for these shapes:
try every start position from the left; at a position the literal must
match, then a maximal nonempty digit run is taken (no backtracking can
help, because every literal that follows a digit group starts with a
non-digit), then the following literal.  The functions below implement
exactly that. -/

/-- Match `LIT(\d+)` at the head of `s`: returns the value of the digit
group and the remainder after it. -/
def matchLitNum (lit : Chars) (s : Chars) : Option (Nat × Chars) :=
  if lit.isPrefixOf s then
    let rest := s.drop lit.length
    let ds := rest.takeWhile Char.isDigit
    if ds.isEmpty then none else some (digitsToNat ds, rest.drop ds.length)
  else none

/-- `re.search` for `LIT(\d+)`: leftmost match, returning the digit
group. -/
def searchLitNum (lit : Chars) (s : Chars) : Option Nat :=
  match matchLitNum lit s with
  | some (n, _) => some n
  | none =>
    match s with
    | [] => none
    | _ :: t => searchLitNum lit t

/-- `re.search` for `LIT1(\d+)LIT2(\d+)`: leftmost match, returning both
digit groups. -/
def searchTwoNum (lit1 lit2 : Chars) (s : Chars) : Option (Nat × Nat) :=
  match
    (match matchLitNum lit1 s with
     | some (n1, rest) =>
       match matchLitNum lit2 rest with
       | some (n2, _) => some (n1, n2)
       | none => none
     | none => none) with
  | some p => some p
  | none =>
    match s with
    | [] => none
    | _ :: t => searchTwoNum lit1 lit2 t

/-- `re.search` for `LIT1(\d+)LIT2` used only as an existence test. -/
def searchNumLit (lit1 lit2 : Chars) (s : Chars) : Bool :=
  match
    (match matchLitNum lit1 s with
     | some (_, rest) => lit2.isPrefixOf rest
     | none => false) with
  | true => true
  | false =>
    match s with
    | [] => false
    | _ :: t => searchNumLit lit1 lit2 t

/-- `re.search(r'(\d+)', s)`: value of the leftmost digit run, if any. -/
def firstDigitRun (s : Chars) : Option Nat := searchLitNum [] s

/-! ### Search criteria and the query parser -/

/-- The criteria dictionary built by `_parse_search_query`.  A `none`
field models absence of the corresponding key. -/
structure SearchCriteria where
  min_price : Option Nat := none
  max_price : Option Nat := none
  max_mileage : Option Nat := none
  color : Option Chars := none
  body_style : Option Chars := none
  make : Option Chars := none
  fuel_type : Option Chars := none
  required_features : List Chars := []
deriving Repr, DecidableEq

/-- The price-pattern block of `_parse_search_query`: the seven patterns
are tried in order and the first that matches wins. -/
def parsePrice (ql : Chars) (c : SearchCriteria) : SearchCriteria :=
  match searchLitNum "menos de ".toList ql with
  | some n => { c with max_price := some n }
  | none =>
  match searchLitNum "bajo ".toList ql with
  | some n => { c with max_price := some n }
  | none =>
  match searchLitNum "máximo ".toList ql with
  | some n => { c with max_price := some n }
  | none =>
  match searchLitNum "hasta ".toList ql with
  | some n => { c with max_price := some n }
  | none =>
  match searchTwoNum "entre ".toList " y ".toList ql with
  | some (a, b) => { c with min_price := some a, max_price := some b }
  | none =>
  match searchTwoNum [] " a ".toList ql with
  | some (a, b) => { c with min_price := some a, max_price := some b }
  | none =>
  match searchLitNum "presupuesto de ".toList ql with
  | some n => { c with max_price := some n }
  | none => c

/-- The literal text of the third mileage pattern, `menos de (\d+) km`.
The Python code runs `re.search(r'(\d+)', pattern)` against this very
string (not against the query), so the extraction is applied to it. -/
def mileagePattern3 : Chars := "menos de (\\d+) km".toList

/-- The literal text of the fourth mileage pattern,
`máximo (\d+) kilómetros`. -/
def mileagePattern4 : Chars := "máximo (\\d+) kilómetros".toList

/-- The mileage-pattern block of `_parse_search_query`.  The first two
patterns contain `pocos`/`bajo` and set the fixed ceiling 20000.  For
the remaining two the code extracts the digits from the *pattern*
string itself, which contains none, so nothing is set. -/
def parseMileage (ql : Chars) (c : SearchCriteria) : SearchCriteria :=
  if containsSub "pocos kilómetros".toList ql then
    { c with max_mileage := some 20000 }
  else if containsSub "bajo kilometraje".toList ql then
    { c with max_mileage := some 20000 }
  else if searchNumLit "menos de ".toList " km".toList ql then
    match firstDigitRun mileagePattern3 with
    | some n => { c with max_mileage := some n }
    | none => c
  else if searchNumLit "máximo ".toList " kilómetros".toList ql then
    match firstDigitRun mileagePattern4 with
    | some n => { c with max_mileage := some n }
    | none => c
  else c

def colorVocabulary : List Chars :=
  ["rojo".toList, "negro".toList, "blanco".toList, "azul".toList,
   "gris".toList, "verde".toList, "amarillo".toList, "naranja".toList]

def bodyStyleTable : List (Chars × List Chars) :=
  [("sedan".toList, ["sedan".toList, "sedán".toList]),
   ("suv".toList, ["suv".toList, "todoterreno".toList, "camioneta".toList]),
   ("pickup".toList, ["pickup".toList, "pick-up".toList, "camioneta".toList]),
   ("hatchback".toList, ["hatchback".toList, "compacto".toList]),
   ("coupe".toList, ["coupe".toList, "coupé".toList, "deportivo".toList]),
   ("van".toList, ["van".toList, "furgoneta".toList, "monovolumen".toList])]

def makeVocabulary : List Chars :=
  ["audi".toList, "bmw".toList, "mercedes".toList, "toyota".toList,
   "honda".toList, "ford".toList, "volkswagen".toList, "nissan".toList,
   "hyundai".toList, "kia".toList, "mazda".toList, "subaru".toList,
   "lexus".toList, "acura".toList, "infiniti".toList, "volvo".toList,
   "cadillac".toList, "genesis".toList, "jaguar".toList,
   "land rover".toList, "porsche".toList, "tesla".toList,
   "aston martin".toList, "ferrari".toList, "lamborghini".toList]

def fuelTypeTable : List (Chars × List Chars) :=
  [("híbrido".toList, ["híbrido".toList, "hibrido".toList, "hybrid".toList]),
   ("eléctrico".toList, ["eléctrico".toList, "electrico".toList, "electric".toList]),
   ("gasolina".toList, ["gasolina".toList, "gasoline".toList]),
   ("diesel".toList, ["diesel".toList, "diésel".toList])]

def featureKeywordTable : List (Chars × List Chars) :=
  [("seguridad".toList, ["seguro".toList, "seguridad".toList, "safety".toList]),
   ("lujo".toList, ["lujo".toList, "luxury".toList, "premium".toList]),
   ("deportivo".toList, ["deportivo".toList, "sport".toList, "performance".toList]),
   ("familiar".toList, ["familiar".toList, "family".toList, "bebé".toList, "niños".toList]),
   ("maletero".toList, ["maletero".toList, "trunk".toList, "espacio".toList, "carga".toList]),
   ("tecnología".toList, ["tecnología".toList, "tech".toList, "navegación".toList, "pantalla".toList])]

/-- `EnhancedInventoryManager._parse_search_query`. -/
def parse_search_query (query : Chars) : SearchCriteria :=
  let ql := pyLower query
  let c : SearchCriteria := {}
  let c := parsePrice ql c
  let c := parseMileage ql c
  let c :=
    match colorVocabulary.find? (fun w => containsSub w ql) with
    | some col => { c with color := some (pyCapitalize col) }
    | none => c
  let c :=
    match bodyStyleTable.find? (fun p => p.2.any (fun k => containsSub k ql)) with
    | some p => { c with body_style := some p.1 }
    | none => c
  let c :=
    match makeVocabulary.find? (fun w => containsSub w ql) with
    | some mk => { c with make := some (pyTitle mk) }
    | none => c
  let c :=
    match fuelTypeTable.find? (fun p => p.2.any (fun k => containsSub k ql)) with
    | some p => { c with fuel_type := some (pyCapitalize p.1) }
    | none => c
  let feats :=
    (featureKeywordTable.filter (fun p => p.2.any (fun k => containsSub k ql))).map
      (fun p => p.1)
  { c with required_features := feats }

example : (parse_search_query "menos de 30000".toList).max_price = some 30000 := by decide
example : (parse_search_query "entre 10000 y 20000".toList).min_price = some 10000 := by decide
example : (parse_search_query "pocos kilómetros".toList).max_mileage = some 20000 := by decide
example : (parse_search_query "menos de 30000 km".toList).max_mileage = none := by decide
example : (parse_search_query "sedan rojo".toList).color = some "Rojo".toList := by decide
example : (parse_search_query "sedan rojo".toList).body_style = some "sedan".toList := by decide

/-! ### Vehicle records and per-row field parsing -/

/-- A row of the loaded inventory table: the sixteen required columns,
the `status` column, the raw `features`/`body_styles` cell contents
(kept by pandas alongside the derived columns, and re-read by
`get_car_by_vin` and `get_inventory_stats`), and the three derived
columns added by `load_inventory`.  A `none` raw cell models a pandas
`NaN`. -/
structure Vehicle where
  year : Int
  make : Chars
  model : Chars
  body_styles_raw : Option Chars
  color : Chars
  mileage : Int
  price : Int
  fuel_type : Chars
  engine : Chars
  transmission : Chars
  safety_rating : Int
  trunk_space_liters : Int
  features_raw : Option Chars
  condition : Chars
  location : Chars
  vin : Chars
  status : Chars
  features_list : List Chars
  body_styles_list : List Chars
  search_text : Chars
deriving Repr, DecidableEq

/-- `EnhancedInventoryManager._parse_features`: `NaN` becomes the empty
list, otherwise the cell is split at commas and each piece stripped. -/
def parse_features : Option Chars → List Chars
  | none => []
  | some s => (splitComma s).map pyStrip

/-- JSON whitespace skipping. -/
def skipJWs (s : Chars) : Chars :=
  s.dropWhile (fun c => c = ' ' || c = '\t' || c = '\n' || c = '\r')

/-- Parse a double-quoted JSON string without escape processing (the
body-style cells never contain escapes): the leading quote has already
been consumed by the caller pattern below. -/
def jsonStrAux : Chars → Option (Chars × Chars)
  | [] => none
  | c :: t =>
    if c = '"' then some ([], t)
    else (jsonStrAux t).map (fun p => (c :: p.1, p.2))

/-- Parse one string element (expects a leading quote). -/
def jsonStrAt : Chars → Option (Chars × Chars)
  | [] => none
  | c :: t => if c = '"' then jsonStrAux t else none

/-- Parse the comma-separated elements of a JSON array of strings, up to
and including the closing bracket; the fuel bounds the recursion. -/
def jsonItems : Chars → Nat → Option (List Chars × Chars)
  | _, 0 => none
  | s, Nat.succ fuel =>
    match jsonStrAt s with
    | none => none
    | some (str, rest) =>
      match skipJWs rest with
      | ']' :: r2 => some ([str], r2)
      | ',' :: r2 =>
        match jsonItems (skipJWs r2) fuel with
        | some (items, r3) => some (str :: items, r3)
        | none => none
      | _ => none

/-- Models `json.loads` restricted to JSON arrays of strings — the only
shape the `body_styles` column carries.  Any other document is treated
as a parse failure (Python would also fail on the column's malformed
cells; documents that are valid JSON but not arrays of strings do not
occur in this data). -/
def jsonListParse (s : Chars) : Option (List Chars) :=
  match skipJWs s with
  | '[' :: r =>
    match skipJWs r with
    | ']' :: r2 => if skipJWs r2 = [] then some [] else none
    | r1 =>
      match jsonItems r1 (r1.length + 1) with
      | some (items, rest) => if skipJWs rest = [] then some items else none
      | none => none
  | _ => none

/-- Models `s.replace("'", '"')` (the apostrophe has character code 39). -/
def replaceQuote (s : Chars) : Chars :=
  s.map (fun c => if c.toNat = 39 then '"' else c)

/-- Python `str.startswith('[')`. -/
def startsWithBracket : Chars → Bool
  | '[' :: _ => true
  | _ => false

/-- `EnhancedInventoryManager._parse_body_styles`: `NaN` becomes the
empty list; a cell starting with `[` is JSON-parsed after replacing
apostrophes with double quotes, and on parse failure the raw cell is
returned as a one-element list; any other cell is returned as a
one-element list. -/
def parse_body_styles : Option Chars → List Chars
  | none => []
  | some s =>
    if startsWithBracket s then
      match jsonListParse (replaceQuote s) with
      | some l => l
      | none => [s]
    else [s]

example : parse_body_styles (some "['Sedan', 'Coupe']".toList) =
    ["Sedan".toList, "Coupe".toList] := by decide
example : parse_body_styles (some "[oops".toList) = ["[oops".toList] := by decide
example : parse_body_styles (some "Sedan".toList) = ["Sedan".toList] := by decide
example : parse_features (some " GPS, Techo ".toList) =
    ["GPS".toList, "Techo".toList] := by decide

/-- `EnhancedInventoryManager._create_search_text`: the lowercased
space-joined concatenation of the listed fields. -/
def create_search_text (year : Int) (make model color fuel_type condition : Chars)
    (features_list body_styles_list : List Chars) (status : Chars) : Chars :=
  pyLower (joinSpace
    [intChars year, make, model, color, fuel_type, condition,
     joinSpace features_list, joinSpace body_styles_list, status])

/-! ### The record store -/

/-- One row of the raw tabular source, as `pd.read_csv` delivers it.
Cell values are only meaningful for columns listed in the enclosing
table's header; `none` models a pandas `NaN` in the nullable cells the
code checks. -/
structure RawRow where
  year : Int
  make : Chars
  model : Chars
  body_styles : Option Chars
  color : Chars
  mileage : Int
  price : Int
  fuel_type : Chars
  engine : Chars
  transmission : Chars
  safety_rating : Int
  trunk_space_liters : Int
  features : Option Chars
  condition : Chars
  location : Chars
  vin : Chars
  status : Option Chars
deriving Repr, DecidableEq

/-- The raw tabular source: a header naming the columns present, and
the parsed rows. -/
structure RawTable where
  columns : List Chars
  rows : List RawRow
deriving Repr, DecidableEq

def required_columns : List Chars :=
  ["year".toList, "make".toList, "model".toList, "body_styles".toList,
   "color".toList, "mileage".toList, "price".toList, "fuel_type".toList,
   "engine".toList, "transmission".toList, "safety_rating".toList,
   "trunk_space_liters".toList, "features".toList, "condition".toList,
   "location".toList, "vin".toList]

/-- The per-row processing `load_inventory` performs on success: default
the status (`'Available'` when the column is absent, `fillna` when it is
present), derive the feature and body-style lists, and derive the search
text. -/
def processRow (hasStatusColumn : Bool) (r : RawRow) : Vehicle :=
  let status :=
    if hasStatusColumn then r.status.getD "Available".toList
    else "Available".toList
  let features_list := parse_features r.features
  let body_styles_list := parse_body_styles r.body_styles
  { year := r.year, make := r.make, model := r.model,
    body_styles_raw := r.body_styles, color := r.color,
    mileage := r.mileage, price := r.price, fuel_type := r.fuel_type,
    engine := r.engine, transmission := r.transmission,
    safety_rating := r.safety_rating,
    trunk_space_liters := r.trunk_space_liters,
    features_raw := r.features, condition := r.condition,
    location := r.location, vin := r.vin, status := status,
    features_list := features_list, body_styles_list := body_styles_list,
    search_text := create_search_text r.year r.make r.model r.color
      r.fuel_type r.condition features_list body_styles_list status }

/-- One entry of the search-history log.  The wall-clock timestamp the
Python code stores is outside the model. -/
structure SearchEntry where
  query : Chars
  results_count : Nat
  criteria : SearchCriteria
deriving Repr, DecidableEq

/-- The mutable state of an `EnhancedInventoryManager`: the in-memory
table (`none` when no usable data is loaded), the search-history log,
and the contents of the backing tabular file as last written. -/
structure ManagerState where
  inventory_df : Option (List Vehicle)
  search_history : List SearchEntry
  stored_file : List Vehicle
deriving Repr, DecidableEq

/-- `EnhancedInventoryManager.load_inventory` applied to an
already-read raw table: fails (clearing the in-memory table) when a
required column is missing, otherwise installs the processed rows. -/
def load_inventory (s : ManagerState) (t : RawTable) : ManagerState × Bool :=
  let missing := required_columns.filter (fun c => !(t.columns.contains c))
  if !missing.isEmpty then ({ s with inventory_df := none }, false)
  else
    let hasStatusColumn := t.columns.contains "status".toList
    ({ s with inventory_df := some (t.rows.map (processRow hasStatusColumn)) }, true)

/-! ### The filter stage

The pipeline rows are pairs `(i, v)`: `i` is the pandas index label of
the row (its position in the loaded table), which filtering, scoring and
sorting carry along and `_convert_to_search_results` renders as
`car_id`. -/

abbrev IRow := Nat × Vehicle

/-- Conditional filtering: `if key in criteria: df = df[pred]`. -/
def maybeFilter (o : Option α) (pred : α → IRow → Bool) (df : List IRow) : List IRow :=
  match o with
  | none => df
  | some a => df.filter (pred a)

def minPriceTest (p : Nat) (r : IRow) : Bool := decide ((p : Int) ≤ r.2.price)
def maxPriceTest (p : Nat) (r : IRow) : Bool := decide (r.2.price ≤ (p : Int))
def maxMileageTest (m : Nat) (r : IRow) : Bool := decide (r.2.mileage ≤ (m : Int))
def colorTest (col : Chars) (r : IRow) : Bool :=
  decide (pyLower r.2.color = pyLower col)
def makeTest (mk : Chars) (r : IRow) : Bool :=
  decide (pyLower r.2.make = pyLower mk)
def bodyStyleTest (bs : Chars) (r : IRow) : Bool :=
  r.2.body_styles_list.any (fun st => containsSub (pyLower bs) (pyLower st))
def fuelTypeTest (ft : Chars) (r : IRow) : Bool :=
  decide (pyLower r.2.fuel_type = pyLower ft)

/-- `EnhancedInventoryManager._apply_search_filters`: the populated
criteria are applied as successive hard filters, in the order of the
source; `required_features` is never consulted. -/
def apply_search_filters (df : List IRow) (c : SearchCriteria) : List IRow :=
  maybeFilter c.fuel_type fuelTypeTest
    (maybeFilter c.body_style bodyStyleTest
      (maybeFilter c.make makeTest
        (maybeFilter c.color colorTest
          (maybeFilter c.max_mileage maxMileageTest
            (maybeFilter c.max_price maxPriceTest
              (maybeFilter c.min_price minPriceTest df))))))

/-! ### The relevance scorer -/

/-- A pipeline row augmented with the two columns the scorer adds. -/
structure ScoredRow where
  idx : Nat
  vehicle : Vehicle
  relevance_score : ℚ
  match_reasons : List Chars
deriving Repr, DecidableEq

/-- The per-row body of the scoring loop in
`_calculate_relevance_scores`: the additive contributions and their
reason strings, in source order. -/
def score_vehicle (query_words : List Chars) (c : SearchCriteria) (v : Vehicle) :
    ℚ × List Chars :=
  let text_matches := (query_words.filter (fun w => containsSub w v.search_text)).length
  let score : ℚ := 0
  let reasons : List Chars := []
  let (score, reasons) :=
    if text_matches > 0 then
      (score + (text_matches : ℚ) / (query_words.length : ℚ) * 30,
       reasons ++ ["Coincidencia de texto (".toList ++ natChars text_matches ++
         "/".toList ++ natChars query_words.length ++ " palabras)".toList])
    else (score, reasons)
  let (score, reasons) :=
    match c.color with
    | some col =>
      if pyLower v.color = pyLower col then
        (score + 25, reasons ++ ["Color exacto: ".toList ++ col])
      else (score, reasons)
    | none => (score, reasons)
  let (score, reasons) :=
    match c.make with
    | some mk =>
      if pyLower v.make = pyLower mk then
        (score + 30, reasons ++ ["Marca exacta: ".toList ++ mk])
      else (score, reasons)
    | none => (score, reasons)
  let (score, reasons) :=
    match c.body_style with
    | some bs =>
      if v.body_styles_list.any (fun st => containsSub (pyLower bs) (pyLower st)) then
        (score + 25, reasons ++ ["Tipo de carrocería: ".toList ++ bs])
      else (score, reasons)
    | none => (score, reasons)
  let (score, reasons) :=
    if v.condition = "Excelente".toList then
      (score + 10, reasons ++ ["Condición excelente".toList])
    else if v.condition = "Muy bueno".toList then
      (score + 5, reasons ++ ["Muy buena condición".toList])
    else (score, reasons)
  let (score, reasons) :=
    if v.mileage < 15000 then
      (score + 15, reasons ++ ["Bajo kilometraje".toList])
    else if v.mileage < 25000 then
      (score + 10, reasons ++ ["Kilometraje moderado".toList])
    else (score, reasons)
  let (score, reasons) :=
    if v.safety_rating = 5 then
      (score + 10, reasons ++ ["Máxima calificación de seguridad".toList])
    else (score, reasons)
  let featHits := c.required_features.filter
    (fun rq => v.features_list.any (fun f => containsSub (pyLower rq) (pyLower f)))
  let reasons := reasons ++
    featHits.map (fun rq => "Característica requerida: ".toList ++ rq)
  let score := if featHits.length > 0 then score + featHits.length * 15 else score
  (score, reasons)

/-- The scored rows in filter-stage order (the dataframe before
`sort_values`). -/
def scoreRows (df : List IRow) (query : Chars) (c : SearchCriteria) : List ScoredRow :=
  let query_words := splitWs (pyLower query)
  df.map (fun p =>
    let sr := score_vehicle query_words c p.2
    { idx := p.1, vehicle := p.2, relevance_score := sr.1, match_reasons := sr.2 })

/-- Stable insertion of a row into a list sorted ascending by score:
the row goes before the first element whose score is not below its
own. -/
def insortScore (x : ScoredRow) : List ScoredRow → List ScoredRow
  | [] => [x]
  | y :: t =>
    if x.relevance_score ≤ y.relevance_score then x :: y :: t
    else y :: insortScore x t

/-- Stable ascending sort by score. -/
def sortScoreAsc : List ScoredRow → List ScoredRow
  | [] => []
  | x :: t => insortScore x (sortScoreAsc t)

/-- Models `df.sort_values('relevance_score', ascending=False)` for the
frames where numpy's default argsort kernel is its stable insertion
sort (at most 16 rows): pandas `nargsort` reverses the rows, argsorts
ascending, and reverses the resulting indexer.  This is the
`sortScoreAsc` instance of the kernel-generic `sortValuesDescWith`
below; above the insertion-sort threshold the default quicksort kernel
conforms to `AscSortKernel` but guarantees nothing about the order of
equal keys, which is why tie-order facts are proved only under that
contract, never of this instance alone. -/
def sortValuesDesc (l : List ScoredRow) : List ScoredRow :=
  (sortScoreAsc l.reverse).reverse

/-- `EnhancedInventoryManager._calculate_relevance_scores`: score every
surviving row against the raw query and the criteria, then sort by
score descending.  (On an empty frame the code returns it unscored;
both branches produce the empty list here.) -/
def calculate_relevance_scores (df : List IRow) (query : Chars) (c : SearchCriteria) :
    List ScoredRow :=
  sortValuesDesc (scoreRows df query c)

/-! ### The result assembler -/

/-- `CarSearchResult`, the structured result dataclass. -/
structure CarSearchResult where
  car_id : Chars
  year : Int
  make : Chars
  model : Chars
  body_style : Chars
  color : Chars
  mileage : Int
  price : Int
  fuel_type : Chars
  engine : Chars
  transmission : Chars
  safety_rating : Int
  trunk_space_liters : Int
  features : List Chars
  condition : Chars
  location : Chars
  vin : Chars
  match_score : ℚ
  match_reasons : List Chars
deriving Repr, DecidableEq

/-- The per-row conversion in `_convert_to_search_results`. -/
def toSearchResult (sr : ScoredRow) : CarSearchResult :=
  { car_id := natChars sr.idx, year := sr.vehicle.year,
    make := sr.vehicle.make, model := sr.vehicle.model,
    body_style := joinCommaSpace sr.vehicle.body_styles_list,
    color := sr.vehicle.color, mileage := sr.vehicle.mileage,
    price := sr.vehicle.price, fuel_type := sr.vehicle.fuel_type,
    engine := sr.vehicle.engine, transmission := sr.vehicle.transmission,
    safety_rating := sr.vehicle.safety_rating,
    trunk_space_liters := sr.vehicle.trunk_space_liters,
    features := sr.vehicle.features_list, condition := sr.vehicle.condition,
    location := sr.vehicle.location, vin := sr.vehicle.vin,
    match_score := sr.relevance_score, match_reasons := sr.match_reasons }

/-- `EnhancedInventoryManager._convert_to_search_results`:
`df.head(max_results)` then row-by-row conversion. -/
def convert_to_search_results (l : List ScoredRow) (max_results : Nat) :
    List CarSearchResult :=
  (l.take max_results).map toSearchResult

/-! ### Search -/

/-- The pandas index labels attached to the loaded rows: position in
the table. -/
def enumIdx : Nat → List Vehicle → List IRow
  | _, [] => []
  | i, v :: t => (i, v) :: enumIdx (i + 1) t

/-- The Available-only view `inventory_df[inventory_df['status'] ==
'Available']`, labels preserved. -/
def activeView (df : List Vehicle) : List IRow :=
  (enumIdx 0 df).filter (fun p => decide (p.2.status = "Available".toList))

/-- `EnhancedInventoryManager.intelligent_search`: returns the new
manager state and the result list.  The early returns (no data, empty
table, no Available rows) do not log to the search history, matching
the source. -/
def intelligent_search (s : ManagerState) (query : Chars) (max_results : Nat) :
    ManagerState × List CarSearchResult :=
  match s.inventory_df with
  | none => (s, [])
  | some df =>
    if df.isEmpty then (s, [])
    else
      let active := activeView df
      if active.isEmpty then (s, [])
      else
        let criteria := parse_search_query query
        let filtered := apply_search_filters active criteria
        let scored := calculate_relevance_scores filtered query criteria
        let results := convert_to_search_results scored max_results
        ({ s with search_history := s.search_history ++
            [{ query := query, results_count := results.length, criteria := criteria }] },
         results)

/-! ### Lookup, reservation, statistics -/

/-- First index (pandas `.index[0]` of the boolean mask) whose row
satisfies the predicate. -/
def firstMatchIdx (p : α → Bool) : List α → Option Nat
  | [] => none
  | x :: t => if p x then some 0 else (firstMatchIdx p t).map (· + 1)

/-- The trimmed-VIN row predicate `df['vin'].str.strip() == vin.strip()`. -/
def vinMatches (vin : Chars) (v : Vehicle) : Bool :=
  decide (pyStrip v.vin = pyStrip vin)

/-- `EnhancedInventoryManager.get_car_by_vin`: the first row whose
trimmed VIN matches, rendered as a `CarSearchResult` with score 1 and
the fixed reason; `none` when no data is loaded or the VIN is absent. -/
def get_car_by_vin (s : ManagerState) (vin : Chars) : Option CarSearchResult :=
  match s.inventory_df with
  | none => none
  | some df =>
    match firstMatchIdx (vinMatches vin) df with
    | none => none
    | some i =>
      match df[i]? with
      | none => none
      | some v =>
        some { car_id := natChars i, year := v.year, make := v.make,
               model := v.model,
               body_style := joinCommaSpace (parse_body_styles v.body_styles_raw),
               color := v.color, mileage := v.mileage, price := v.price,
               fuel_type := v.fuel_type, engine := v.engine,
               transmission := v.transmission, safety_rating := v.safety_rating,
               trunk_space_liters := v.trunk_space_liters,
               features := parse_features v.features_raw,
               condition := v.condition, location := v.location, vin := v.vin,
               match_score := 1, match_reasons := ["Direct VIN lookup".toList] }

/-- `df.loc[idx, 'status'] = st`: overwrite the status cell of row
`idx`. -/
def setStatus (df : List Vehicle) (i : Nat) (st : Chars) : List Vehicle :=
  match df[i]? with
  | some w => df.set i { w with status := st }
  | none => df

/-- `EnhancedInventoryManager.reserve_vehicle`.  `saveOk` models the
outcome of the `to_csv` persistence call: on `true` the file takes the
new table contents; on `false` the write raised, the in-memory status
is reverted to `'Available'`, and failure is returned. -/
def reserve_vehicle (s : ManagerState) (saveOk : Bool) (vin : Chars) :
    ManagerState × Bool :=
  match s.inventory_df with
  | none => (s, false)
  | some df =>
    match firstMatchIdx (vinMatches vin) df with
    | none => (s, false)
    | some i =>
      match df[i]? with
      | none => (s, false)
      | some v =>
        if v.status = "Available".toList then
          let df2 := setStatus df i "Reserved".toList
          if saveOk then
            ({ s with inventory_df := some df2, stored_file := df2 }, true)
          else
            ({ s with inventory_df := some (setStatus df2 i "Available".toList) },
             false)
        else (s, false)

/-- Occurrence counts of the distinct values of a column, in
first-appearance order, then stably sorted by count descending —
`pd.Series.value_counts()` on this data. -/
def valueCounts (l : List Chars) : List (Chars × Nat) :=
  let distinct := l.foldl (fun acc x => if acc.contains x then acc else acc ++ [x]) []
  let counted := distinct.map (fun x => (x, (l.filter (fun y => y = x)).length))
  let rec insertDesc (p : Chars × Nat) : List (Chars × Nat) → List (Chars × Nat)
    | [] => [p]
    | q :: t => if p.2 ≥ q.2 then p :: q :: t else q :: insertDesc p t
  let rec sortDesc : List (Chars × Nat) → List (Chars × Nat)
    | [] => []
    | p :: t => insertDesc p (sortDesc t)
  sortDesc counted

/-- The aggregate dictionary of `get_inventory_stats`. -/
structure InventoryStats where
  total_vehicles : Nat
  total_value : Int
  average_price : ℚ
  average_mileage : ℚ
  makes_count : Nat
  top_makes : List (Chars × Nat)
  body_styles_counts : List (Chars × Nat)
  fuel_types : List (Chars × Nat)
  conditions : List (Chars × Nat)
  under_30k : Nat
  from_30k_to_50k : Nat
  from_50k_to_100k : Nat
  over_100k : Nat
deriving Repr, DecidableEq

/-- `EnhancedInventoryManager.get_inventory_stats`: `none` models the
empty dictionary returned when no data is loaded (or the table is
empty); otherwise the aggregates.  `value_counts` drops `NaN` cells,
hence the `filterMap` on the raw body-styles column. -/
def get_inventory_stats (s : ManagerState) : Option InventoryStats :=
  match s.inventory_df with
  | none => none
  | some df =>
    if df.isEmpty then none
    else
      some
        { total_vehicles := df.length,
          total_value := (df.map (fun v => v.price)).sum,
          average_price := ((df.map (fun v => v.price)).sum : ℚ) / (df.length : ℚ),
          average_mileage := ((df.map (fun v => v.mileage)).sum : ℚ) / (df.length : ℚ),
          makes_count := ((df.map (fun v => v.make)).foldl
            (fun acc x => if acc.contains x then acc else acc ++ [x]) []).length,
          top_makes := (valueCounts (df.map (fun v => v.make))).take 5,
          body_styles_counts :=
            (valueCounts (df.filterMap (fun v => v.body_styles_raw))).take 5,
          fuel_types := valueCounts (df.map (fun v => v.fuel_type)),
          conditions := valueCounts (df.map (fun v => v.condition)),
          under_30k := (df.filter (fun v => decide (v.price < 30000))).length,
          from_30k_to_50k := (df.filter
            (fun v => decide (30000 ≤ v.price ∧ v.price < 50000))).length,
          from_50k_to_100k := (df.filter
            (fun v => decide (50000 ≤ v.price ∧ v.price < 100000))).length,
          over_100k := (df.filter (fun v => decide (100000 ≤ v.price))).length }

/-! ### Concrete fixtures used by the sample-input theorems below -/

/-- An Available red sedan used as concrete sample data. -/
def sampleVehicle : Vehicle :=
  { year := 2020, make := "Toyota".toList, model := "Corolla".toList,
    body_styles_raw := some "['Sedan']".toList, color := "Rojo".toList,
    mileage := 30000, price := 18000, fuel_type := "Gasolina".toList,
    engine := "1.8L".toList, transmission := "Manual".toList,
    safety_rating := 4, trunk_space_liters := 400,
    features_raw := some "GPS".toList, condition := "Bueno".toList,
    location := "Madrid".toList, vin := "VIN100".toList,
    status := "Available".toList, features_list := ["GPS".toList],
    body_styles_list := ["Sedan".toList],
    search_text := "2020 toyota corolla rojo gasolina bueno gps sedan available".toList }

/-- A second Available vehicle that scores identically to
`sampleVehicle` on the empty query. -/
def sampleVehicle2 : Vehicle :=
  { sampleVehicle with
    vin := "VIN200".toList
    model := "Camry".toList
    search_text := "2020 toyota camry rojo gasolina bueno gps sedan available".toList }

/-- A Reserved vehicle. -/
def sampleReserved : Vehicle :=
  { sampleVehicle with
    vin := "VIN300".toList
    status := "Reserved".toList }

def sampleState : ManagerState :=
  { inventory_df := some [sampleVehicle], search_history := [],
    stored_file := [sampleVehicle] }

def samplePairState : ManagerState :=
  { inventory_df := some [sampleVehicle, sampleVehicle2], search_history := [],
    stored_file := [sampleVehicle, sampleVehicle2] }

example :
    (intelligent_search sampleState [] 10).2 =
      [toSearchResult
        { idx := 0, vehicle := sampleVehicle, relevance_score := 0,
          match_reasons := [] }] := by decide
example :
    ((intelligent_search samplePairState [] 10).2.map (fun r => r.vin)) =
      ["VIN100".toList, "VIN200".toList] := by decide
example : (reserve_vehicle sampleState true "VIN100".toList).2 = true := by decide

/-! ### Helper lemmas -/

theorem mem_maybeFilter {o : Option α} {pred : α → IRow → Bool} {df : List IRow}
    {x : IRow} (h : x ∈ maybeFilter o pred df) :
    x ∈ df ∧ ∀ a, o = some a → pred a x = true := by
  cases o with
  | none => exact ⟨h, fun a ha => by cases ha⟩
  | some a =>
    have h' := List.mem_filter.mp h
    refine ⟨h'.1, fun b hb => ?_⟩
    injection hb with hb
    subst hb
    exact h'.2

theorem mem_apply_search_filters {df : List IRow} {c : SearchCriteria} {x : IRow}
    (h : x ∈ apply_search_filters df c) :
    x ∈ df ∧
      (∀ a, c.min_price = some a → minPriceTest a x = true) ∧
      (∀ a, c.max_price = some a → maxPriceTest a x = true) ∧
      (∀ a, c.max_mileage = some a → maxMileageTest a x = true) ∧
      (∀ a, c.color = some a → colorTest a x = true) ∧
      (∀ a, c.make = some a → makeTest a x = true) ∧
      (∀ a, c.body_style = some a → bodyStyleTest a x = true) ∧
      (∀ a, c.fuel_type = some a → fuelTypeTest a x = true) := by
  unfold apply_search_filters at h
  obtain ⟨h, hfuel⟩ := mem_maybeFilter h
  obtain ⟨h, hbody⟩ := mem_maybeFilter h
  obtain ⟨h, hmake⟩ := mem_maybeFilter h
  obtain ⟨h, hcolor⟩ := mem_maybeFilter h
  obtain ⟨h, hmile⟩ := mem_maybeFilter h
  obtain ⟨h, hpmax⟩ := mem_maybeFilter h
  obtain ⟨h, hpmin⟩ := mem_maybeFilter h
  exact ⟨h, hpmin, hpmax, hmile, hcolor, hmake, hbody, hfuel⟩

/-- The required-features list never influences the filter stage. -/
theorem apply_search_filters_required_features (df : List IRow)
    (c : SearchCriteria) (rf : List Chars) :
    apply_search_filters df { c with required_features := rf } =
      apply_search_filters df c := rfl

theorem mem_insortScore {a x : ScoredRow} {l : List ScoredRow} :
    a ∈ insortScore x l ↔ a = x ∨ a ∈ l := by
  induction l with
  | nil => simp [insortScore]
  | cons y t ih =>
    by_cases hxy : x.relevance_score ≤ y.relevance_score
    · rw [insortScore, if_pos hxy]
      simp only [List.mem_cons]
    · rw [insortScore, if_neg hxy]
      simp only [List.mem_cons, ih]
      tauto

theorem mem_sortScoreAsc {a : ScoredRow} {l : List ScoredRow} :
    a ∈ sortScoreAsc l ↔ a ∈ l := by
  induction l with
  | nil => simp [sortScoreAsc]
  | cons x t ih => simp [sortScoreAsc, mem_insortScore, ih]

theorem mem_sortValuesDesc {a : ScoredRow} {l : List ScoredRow} :
    a ∈ sortValuesDesc l ↔ a ∈ l := by
  simp [sortValuesDesc, mem_sortScoreAsc]

theorem sorted_insortScore {x : ScoredRow} {l : List ScoredRow}
    (h : l.Pairwise (fun a b => a.relevance_score ≤ b.relevance_score)) :
    (insortScore x l).Pairwise (fun a b => a.relevance_score ≤ b.relevance_score) := by
  induction l with
  | nil => simp [insortScore]
  | cons y t ih =>
    rw [List.pairwise_cons] at h
    by_cases hxy : x.relevance_score ≤ y.relevance_score
    · rw [insortScore, if_pos hxy]
      refine List.pairwise_cons.mpr ⟨?_, List.pairwise_cons.mpr h⟩
      intro b hb
      rcases List.mem_cons.mp hb with hb | hb
      · exact hb ▸ hxy
      · exact le_trans hxy (h.1 b hb)
    · rw [insortScore, if_neg hxy]
      refine List.pairwise_cons.mpr ⟨?_, ih h.2⟩
      intro b hb
      rcases mem_insortScore.mp hb with hb | hb
      · exact hb ▸ le_of_not_le hxy
      · exact h.1 b hb

theorem sorted_sortScoreAsc (l : List ScoredRow) :
    (sortScoreAsc l).Pairwise (fun a b => a.relevance_score ≤ b.relevance_score) := by
  induction l with
  | nil => simp [sortScoreAsc]
  | cons x t ih => exact sorted_insortScore ih

theorem sorted_sortValuesDesc (l : List ScoredRow) :
    (sortValuesDesc l).Pairwise (fun a b => b.relevance_score ≤ a.relevance_score) := by
  rw [sortValuesDesc, List.pairwise_reverse]
  exact sorted_sortScoreAsc l.reverse

theorem sublist_insortScore (x : ScoredRow) (l : List ScoredRow) :
    List.Sublist l (insortScore x l) := by
  induction l with
  | nil => simp [insortScore]
  | cons y t ih =>
    by_cases hxy : x.relevance_score ≤ y.relevance_score
    · rw [insortScore, if_pos hxy]
      exact List.Sublist.cons x (List.Sublist.refl (y :: t))
    · rw [insortScore, if_neg hxy]
      exact List.Sublist.cons₂ y ih

/-- Inserting `x` into a sorted list places it before every element
whose score is not below `x`'s. -/
theorem insortScore_before {x a : ScoredRow} {l : List ScoredRow}
    (ha : a ∈ l) (hle : x.relevance_score ≤ a.relevance_score) :
    List.Sublist [x, a] (insortScore x l) := by
  induction l with
  | nil => cases ha
  | cons y t ih =>
    by_cases hxy : x.relevance_score ≤ y.relevance_score
    · rw [insortScore, if_pos hxy]
      exact List.Sublist.cons₂ x (List.singleton_sublist.mpr ha)
    · rw [insortScore, if_neg hxy]
      rcases List.mem_cons.mp ha with rfl | ha
      · exact absurd hle hxy
      · exact List.Sublist.cons y (ih ha)

/-- Stability of the ascending sort on equal scores: an ordered pair of
equal-score rows survives as an ordered pair. -/
theorem tie_sublist_sortScoreAsc {a b : ScoredRow} {l : List ScoredRow}
    (h : List.Sublist [a, b] l) (heq : a.relevance_score = b.relevance_score) :
    List.Sublist [a, b] (sortScoreAsc l) := by
  induction l with
  | nil => cases h
  | cons z t ih =>
    cases h with
    | cons _ h' =>
      exact (ih h').trans (sublist_insortScore z (sortScoreAsc t))
    | cons₂ _ h' =>
      have hb : b ∈ sortScoreAsc t :=
        mem_sortScoreAsc.mpr (List.singleton_sublist.mp h')
      exact insortScore_before hb (le_of_eq heq)

/-- Stability of the descending sort on equal scores. -/
theorem tie_sublist_sortValuesDesc {x y : ScoredRow} {l : List ScoredRow}
    (h : List.Sublist [x, y] l) (heq : x.relevance_score = y.relevance_score) :
    List.Sublist [x, y] (sortValuesDesc l) := by
  have h1 : List.Sublist [y, x] l.reverse := by
    have := h.reverse
    simpa using this
  have h2 := tie_sublist_sortScoreAsc h1 heq.symm
  have h3 := h2.reverse
  simpa [sortValuesDesc] using h3

theorem mem_enumIdx {k : Nat} {df : List Vehicle} {p : IRow}
    (h : p ∈ enumIdx k df) : p.2 ∈ df := by
  induction df generalizing k with
  | nil => cases h
  | cons v t ih =>
    rcases List.mem_cons.mp h with rfl | h
    · exact List.mem_cons_self _ _
    · exact List.mem_cons_of_mem _ (ih h)

theorem firstMatchIdx_some {p : α → Bool} {l : List α} {i : Nat}
    (h : firstMatchIdx p l = some i) : ∃ x, l[i]? = some x ∧ p x = true := by
  induction l generalizing i with
  | nil => cases h
  | cons y t ih =>
    rw [firstMatchIdx] at h
    by_cases hy : p y
    · rw [if_pos hy] at h
      injection h with h
      subst h
      exact ⟨y, by simp, hy⟩
    · rw [if_neg hy] at h
      cases hfi : firstMatchIdx p t with
      | none => rw [hfi] at h; cases h
      | some j =>
        rw [hfi] at h
        injection h with h
        subst h
        obtain ⟨x, hx, hpx⟩ := ih hfi
        exact ⟨x, by simpa using hx, hpx⟩

/-- Replacing the found row with one that still satisfies the predicate
leaves the first matching index unchanged. -/
theorem firstMatchIdx_set {p : α → Bool} {l : List α} {i : Nat} {v : α}
    (h : firstMatchIdx p l = some i) (hv : p v = true) :
    firstMatchIdx p (l.set i v) = some i := by
  induction l generalizing i with
  | nil => cases h
  | cons y t ih =>
    rw [firstMatchIdx] at h
    by_cases hy : p y
    · rw [if_pos hy] at h
      injection h with h
      subst h
      simp [firstMatchIdx, hv]
    · rw [if_neg hy] at h
      cases hfi : firstMatchIdx p t with
      | none => rw [hfi] at h; cases h
      | some j =>
        rw [hfi] at h
        injection h with h
        subst h
        simp only [List.set]
        rw [firstMatchIdx, if_neg hy, ih hfi]
        rfl

/-- Setting an index back to the value it already holds is the
identity. -/
theorem set_self_of_getElem? {l : List α} {i : Nat} {x : α}
    (h : l[i]? = some x) : l.set i x = l := by
  induction l generalizing i with
  | nil => cases h
  | cons y t ih =>
    cases i with
    | zero =>
      simp only [List.getElem?_cons_zero] at h
      injection h with h
      subst h
      rfl
    | succ j =>
      simp only [List.getElem?_cons_succ] at h
      simp [List.set, ih h]

/-- Every result of a search originates in a loaded, Available row that
survived the filter stage, with the row's fields copied into the
result. -/
theorem search_result_provenance {s : ManagerState} {q : Chars} {n : Nat}
    {r : CarSearchResult} (hr : r ∈ (intelligent_search s q n).2) :
    ∃ df p, s.inventory_df = some df ∧
      p ∈ apply_search_filters (activeView df) (parse_search_query q) ∧
      p.2 ∈ df ∧ p.2.status = "Available".toList ∧
      r = toSearchResult
        { idx := p.1, vehicle := p.2,
          relevance_score :=
            (score_vehicle (splitWs (pyLower q)) (parse_search_query q) p.2).1,
          match_reasons :=
            (score_vehicle (splitWs (pyLower q)) (parse_search_query q) p.2).2 } := by
  unfold intelligent_search at hr
  cases hinv : s.inventory_df with
  | none => rw [hinv] at hr; cases hr
  | some df =>
    rw [hinv] at hr
    simp only at hr
    by_cases hdf : df.isEmpty
    · rw [if_pos hdf] at hr; cases hr
    · rw [if_neg hdf] at hr
      by_cases hact : (activeView df).isEmpty
      · rw [if_pos hact] at hr; cases hr
      · rw [if_neg hact] at hr
        simp only [convert_to_search_results, List.mem_map] at hr
        obtain ⟨sr, hsr, hconv⟩ := hr
        have hsr' : sr ∈ calculate_relevance_scores
            (apply_search_filters (activeView df) (parse_search_query q)) q
            (parse_search_query q) :=
          (List.take_sublist _ _).mem hsr
        rw [calculate_relevance_scores, mem_sortValuesDesc] at hsr'
        rw [scoreRows, List.mem_map] at hsr'
        obtain ⟨p, hp, hpsr⟩ := hsr'
        have hpav := (mem_apply_search_filters hp).1
        have hpav' := List.mem_filter.mp hpav
        refine ⟨df, p, rfl, hp, mem_enumIdx hpav'.1, of_decide_eq_true hpav'.2, ?_⟩
        rw [← hconv, ← hpsr]

/-- C1: every result returned by the search operation satisfies every
criterion the parser populated from the query — price bounds, mileage
bound, case-insensitive exact colour/make/fuel equality, and the body
style as a case-insensitive substring of some entry of the row's
body-style list — while the required-features list is never consulted
by the filter stage. -/
theorem C1_filtering_conjunctive (s : ManagerState) (q : Chars) (n : Nat)
    (r : CarSearchResult) (hr : r ∈ (intelligent_search s q n).2) :
    (∀ df c rf, apply_search_filters df { c with required_features := rf } =
      apply_search_filters df c) ∧
    ∃ df v, s.inventory_df = some df ∧ v ∈ df ∧
      r.vin = v.vin ∧ r.price = v.price ∧ r.mileage = v.mileage ∧
      r.color = v.color ∧ r.make = v.make ∧ r.fuel_type = v.fuel_type ∧
      (∀ a, (parse_search_query q).min_price = some a → (a : Int) ≤ v.price) ∧
      (∀ a, (parse_search_query q).max_price = some a → v.price ≤ (a : Int)) ∧
      (∀ a, (parse_search_query q).max_mileage = some a → v.mileage ≤ (a : Int)) ∧
      (∀ a, (parse_search_query q).color = some a → pyLower v.color = pyLower a) ∧
      (∀ a, (parse_search_query q).make = some a → pyLower v.make = pyLower a) ∧
      (∀ a, (parse_search_query q).fuel_type = some a →
        pyLower v.fuel_type = pyLower a) ∧
      (∀ a, (parse_search_query q).body_style = some a →
        ∃ st, st ∈ v.body_styles_list ∧
          containsSub (pyLower a) (pyLower st) = true) := by
  refine ⟨fun df c rf => apply_search_filters_required_features df c rf, ?_⟩
  obtain ⟨df, p, hinv, hp, hmem, _, hconv⟩ := search_result_provenance hr
  obtain ⟨_, hpmin, hpmax, hmile, hcolor, hmake, hbody, hfuel⟩ :=
    mem_apply_search_filters hp
  subst hconv
  refine ⟨df, p.2, hinv, hmem, rfl, rfl, rfl, rfl, rfl, rfl,
    fun a ha => of_decide_eq_true (hpmin a ha),
    fun a ha => of_decide_eq_true (hpmax a ha),
    fun a ha => of_decide_eq_true (hmile a ha),
    fun a ha => of_decide_eq_true (hcolor a ha),
    fun a ha => of_decide_eq_true (hmake a ha),
    fun a ha => of_decide_eq_true (hfuel a ha),
    fun a ha => ?_⟩
  obtain ⟨st, hst, hsub⟩ := List.any_eq_true.mp (hbody a ha)
  exact ⟨st, hst, hsub⟩

/-- The single result that searching `sampleState` with the empty query
produces. -/
def sampleResult : CarSearchResult :=
  toSearchResult
    { idx := 0, vehicle := sampleVehicle, relevance_score := 0,
      match_reasons := [] }

/-- Concrete instantiation of `C1_filtering_conjunctive`. -/
theorem C1_filtering_conjunctive_witness :
    sampleResult ∈ (intelligent_search sampleState [] 10).2 ∧
    ((∀ df c rf, apply_search_filters df { c with required_features := rf } =
      apply_search_filters df c) ∧
    ∃ df v, sampleState.inventory_df = some df ∧ v ∈ df ∧
      sampleResult.vin = v.vin ∧ sampleResult.price = v.price ∧
      sampleResult.mileage = v.mileage ∧ sampleResult.color = v.color ∧
      sampleResult.make = v.make ∧ sampleResult.fuel_type = v.fuel_type ∧
      (∀ a, (parse_search_query []).min_price = some a → (a : Int) ≤ v.price) ∧
      (∀ a, (parse_search_query []).max_price = some a → v.price ≤ (a : Int)) ∧
      (∀ a, (parse_search_query []).max_mileage = some a → v.mileage ≤ (a : Int)) ∧
      (∀ a, (parse_search_query []).color = some a → pyLower v.color = pyLower a) ∧
      (∀ a, (parse_search_query []).make = some a → pyLower v.make = pyLower a) ∧
      (∀ a, (parse_search_query []).fuel_type = some a →
        pyLower v.fuel_type = pyLower a) ∧
      (∀ a, (parse_search_query []).body_style = some a →
        ∃ st, st ∈ v.body_styles_list ∧
          containsSub (pyLower a) (pyLower st) = true)) :=
  ⟨by decide, C1_filtering_conjunctive sampleState [] 10 sampleResult (by decide)⟩

/-- C2: no record whose status differs from `'Available'` ever appears
in search results — every result comes from an Available row — and
rows with any other status are removed before any criterion is applied:
the filter stage's input contains only Available rows. -/
theorem C2_reserved_never_returned (s : ManagerState) (q : Chars) (n : Nat)
    (r : CarSearchResult) (hr : r ∈ (intelligent_search s q n).2) :
    (∃ df v, s.inventory_df = some df ∧ v ∈ df ∧
      v.status = "Available".toList ∧ r.vin = v.vin ∧ r.make = v.make ∧
      r.model = v.model ∧ r.price = v.price) ∧
    (∀ df p, p ∈ activeView df → p.2.status = "Available".toList) := by
  obtain ⟨df, p, hinv, _, hmem, hstatus, hconv⟩ := search_result_provenance hr
  subst hconv
  refine ⟨⟨df, p.2, hinv, hmem, hstatus, rfl, rfl, rfl, rfl⟩, ?_⟩
  intro df' p' hp'
  exact of_decide_eq_true (List.mem_filter.mp hp').2

/-- Concrete instantiation of `C2_reserved_never_returned`. -/
theorem C2_reserved_never_returned_witness :
    sampleResult ∈ (intelligent_search sampleState [] 10).2 ∧
    ((∃ df v, sampleState.inventory_df = some df ∧ v ∈ df ∧
      v.status = "Available".toList ∧ sampleResult.vin = v.vin ∧
      sampleResult.make = v.make ∧ sampleResult.model = v.model ∧
      sampleResult.price = v.price) ∧
    (∀ df p, p ∈ activeView df → p.2.status = "Available".toList)) :=
  ⟨by decide, C2_reserved_never_returned sampleState [] 10 sampleResult (by decide)⟩

/-- C9: search mutates neither the in-memory table nor the persisted
file; the only state it touches is the search-history log, which it can
only extend. -/
theorem C9_search_frame (s : ManagerState) (q : Chars) (n : Nat) :
    (intelligent_search s q n).1.inventory_df = s.inventory_df ∧
    (intelligent_search s q n).1.stored_file = s.stored_file ∧
    ∃ tail, (intelligent_search s q n).1.search_history =
      s.search_history ++ tail := by
  obtain ⟨inv, hist, file⟩ := s
  cases inv with
  | none => exact ⟨rfl, rfl, [], (List.append_nil hist).symm⟩
  | some df =>
    by_cases hdf : df.isEmpty = true
    · simp only [intelligent_search, hdf, if_true]
      exact ⟨trivial, trivial, [], by simp⟩
    · by_cases hact : (activeView df).isEmpty = true
      · simp only [intelligent_search, hdf, hact, if_true, if_false]
        exact ⟨rfl, rfl, [], by simp⟩
      · simp only [intelligent_search, hdf, hact, if_false]
        exact ⟨rfl, rfl, [_], rfl⟩

theorem getElem?_set_of_some {l : List α} {i : Nat} {x a : α}
    (h : l[i]? = some x) : (l.set i a)[i]? = some a := by
  induction l generalizing i with
  | nil => cases h
  | cons y t ih =>
    cases i with
    | zero => simp [List.set]
    | succ j =>
      simp only [List.getElem?_cons_succ] at h
      simpa using ih h

theorem set_set_same {l : List α} {i : Nat} (a b : α) :
    (l.set i a).set i b = l.set i b := by
  induction l generalizing i with
  | nil => rfl
  | cons y t ih =>
    cases i with
    | zero => rfl
    | succ j => simp [List.set, ih]

/-- The row predicate used by `reserve_vehicle` only reads the VIN, so
updating the status does not change it. -/
theorem vinMatches_set_status (vin : Chars) (v : Vehicle) (st : Chars) :
    vinMatches vin { v with status := st } = vinMatches vin v := rfl

/-- C4: when the persistence step fails, the reservation is rolled back
in memory and failure returned: a reserve whose write fails leaves the
manager state exactly as it was before the call, whatever the state and
VIN. -/
theorem C4_persistence_failure_rollback (s : ManagerState) (vin : Chars) :
    reserve_vehicle s false vin = (s, false) := by
  obtain ⟨inv, hist, file⟩ := s
  cases inv with
  | none => rfl
  | some df =>
    cases hfi : firstMatchIdx (vinMatches vin) df with
    | none => simp only [reserve_vehicle, hfi]
    | some i =>
      cases hget : df[i]? with
      | none => simp only [reserve_vehicle, hfi, hget]
      | some v =>
        simp only [reserve_vehicle, hfi, hget]
        by_cases hst : v.status = "Available".toList
        · rw [if_pos hst, if_neg Bool.false_ne_true]
          have h3 : setStatus (setStatus df i "Reserved".toList) i
              "Available".toList = df := by
            have h1 : setStatus df i "Reserved".toList =
                df.set i { v with status := "Reserved".toList } := by
              simp only [setStatus, hget]
            rw [h1]
            simp only [setStatus, getElem?_set_of_some hget]
            show (df.set i { v with status := "Reserved".toList }).set i
              { v with status := "Available".toList } = df
            rw [set_set_same, ← hst]
            exact set_self_of_getElem? hget
          rw [h3]
        · rw [if_neg hst]

/-- C3: with a loaded table and a successful persistence step, reserve
succeeds exactly when a row with the trimmed VIN exists and is
Available; on success that row becomes Reserved in memory and the whole
table is persisted; on failure nothing changes; and a second reserve of
the same VIN immediately after a successful one fails without
mutation. -/
theorem C3_reserve_success_iff (s : ManagerState) (df : List Vehicle) (vin : Chars)
    (h : s.inventory_df = some df) :
    ((reserve_vehicle s true vin).2 = true ↔
      ∃ i v, firstMatchIdx (vinMatches vin) df = some i ∧ df[i]? = some v ∧
        v.status = "Available".toList) ∧
    ((reserve_vehicle s true vin).2 = true →
      ∃ i v, firstMatchIdx (vinMatches vin) df = some i ∧ df[i]? = some v ∧
        (reserve_vehicle s true vin).1.inventory_df =
          some (df.set i { v with status := "Reserved".toList }) ∧
        (reserve_vehicle s true vin).1.stored_file =
          df.set i { v with status := "Reserved".toList } ∧
        (reserve_vehicle s true vin).1.search_history = s.search_history) ∧
    ((reserve_vehicle s true vin).2 = false → (reserve_vehicle s true vin).1 = s) ∧
    ((reserve_vehicle s true vin).2 = true →
      (reserve_vehicle (reserve_vehicle s true vin).1 true vin).2 = false ∧
      (reserve_vehicle (reserve_vehicle s true vin).1 true vin).1 =
        (reserve_vehicle s true vin).1) := by
  obtain ⟨inv, hist, file⟩ := s
  have h' : inv = some df := h
  subst h'
  cases hfi : firstMatchIdx (vinMatches vin) df with
  | none =>
    have hres : reserve_vehicle ⟨some df, hist, file⟩ true vin =
        (⟨some df, hist, file⟩, false) := by
      simp only [reserve_vehicle, hfi]
    rw [hres]
    refine ⟨⟨fun h2 => (Bool.false_ne_true h2).elim, ?_⟩,
      fun h2 => (Bool.false_ne_true h2).elim, fun _ => rfl,
      fun h2 => (Bool.false_ne_true h2).elim⟩
    rintro ⟨i, v, hi, -, -⟩
    cases hi
  | some i =>
    obtain ⟨x, hx, hpx⟩ := firstMatchIdx_some hfi
    cases hget : df[i]? with
    | none => rw [hget] at hx; cases hx
    | some v =>
      rw [hget] at hx
      injection hx with hx
      subst hx
      by_cases hst : v.status = "Available".toList
      · have hreserved : setStatus df i "Reserved".toList =
            df.set i { v with status := "Reserved".toList } := by
          simp only [setStatus, hget]
        have hres : reserve_vehicle ⟨some df, hist, file⟩ true vin =
            (⟨some (df.set i { v with status := "Reserved".toList }), hist,
              df.set i { v with status := "Reserved".toList }⟩, true) := by
          simp only [reserve_vehicle, hfi, hget]
          rw [if_pos hst, if_pos trivial, hreserved]
        rw [hres]
        have hfi2 : firstMatchIdx (vinMatches vin)
            (df.set i { v with status := "Reserved".toList }) = some i :=
          firstMatchIdx_set hfi hpx
        have hget2 : (df.set i { v with status := "Reserved".toList })[i]? =
            some { v with status := "Reserved".toList } :=
          getElem?_set_of_some hget
        have hres2 : reserve_vehicle
            ⟨some (df.set i { v with status := "Reserved".toList }), hist,
              df.set i { v with status := "Reserved".toList }⟩ true vin =
            (⟨some (df.set i { v with status := "Reserved".toList }), hist,
              df.set i { v with status := "Reserved".toList }⟩, false) := by
          simp only [reserve_vehicle, hfi2, hget2]
          rw [if_neg (by decide)]
        refine ⟨⟨fun _ => ⟨i, v, rfl, hget, hst⟩, fun _ => rfl⟩,
          fun _ => ⟨i, v, rfl, hget, rfl, rfl, rfl⟩,
          fun h2 => Bool.noConfusion h2, fun _ => ?_⟩
        rw [hres2]
        exact ⟨rfl, rfl⟩
      · have hres : reserve_vehicle ⟨some df, hist, file⟩ true vin =
            (⟨some df, hist, file⟩, false) := by
          simp only [reserve_vehicle, hfi, hget]
          rw [if_neg hst]
        rw [hres]
        refine ⟨⟨fun h2 => (Bool.false_ne_true h2).elim, ?_⟩,
          fun h2 => (Bool.false_ne_true h2).elim, fun _ => rfl,
          fun h2 => (Bool.false_ne_true h2).elim⟩
        rintro ⟨i2, v2, hi2, hget2, hst2⟩
        injection hi2 with hi2
        subst hi2
        rw [hget] at hget2
        injection hget2 with hget2
        subst hget2
        exact absurd hst2 hst

/-- Concrete instantiation of `C3_reserve_success_iff`: reserving the
sample VIN succeeds, and reserving it again immediately fails. -/
theorem C3_reserve_success_iff_witness :
    (reserve_vehicle sampleState true "VIN100".toList).2 = true ∧
    (reserve_vehicle (reserve_vehicle sampleState true "VIN100".toList).1
      true "VIN100".toList).2 = false := by
  have h := C3_reserve_success_iff sampleState [sampleVehicle] "VIN100".toList rfl
  have hsucc : (reserve_vehicle sampleState true "VIN100".toList).2 = true :=
    h.1.mpr ⟨0, sampleVehicle, by decide, by decide, rfl⟩
  exact ⟨hsucc, (h.2.2.2 hsucc).1⟩

/-- C10: a successful reserve updates exactly the status field of the
first row whose trimmed VIN matches; every other field of that row, and
every other row, are untouched. -/
theorem C10_reserve_touches_one_row (s : ManagerState) (df : List Vehicle)
    (b : Bool) (vin : Chars) (h : s.inventory_df = some df)
    (hsucc : (reserve_vehicle s b vin).2 = true) :
    ∃ i v, firstMatchIdx (vinMatches vin) df = some i ∧ df[i]? = some v ∧
      v.status = "Available".toList ∧
      (reserve_vehicle s b vin).1.inventory_df =
        some (df.set i { v with status := "Reserved".toList }) ∧
      ∀ j, j ≠ i →
        (df.set i { v with status := "Reserved".toList })[j]? = df[j]? := by
  obtain ⟨inv, hist, file⟩ := s
  have h' : inv = some df := h
  subst h'
  cases hfi : firstMatchIdx (vinMatches vin) df with
  | none =>
    have hres : reserve_vehicle ⟨some df, hist, file⟩ b vin =
        (⟨some df, hist, file⟩, false) := by
      simp only [reserve_vehicle, hfi]
    rw [hres] at hsucc
    exact (Bool.false_ne_true hsucc).elim
  | some i =>
    cases hget : df[i]? with
    | none =>
      have hres : reserve_vehicle ⟨some df, hist, file⟩ b vin =
          (⟨some df, hist, file⟩, false) := by
        simp only [reserve_vehicle, hfi, hget]
      rw [hres] at hsucc
      exact (Bool.false_ne_true hsucc).elim
    | some v =>
      by_cases hst : v.status = "Available".toList
      · cases b with
        | false =>
          have hres : reserve_vehicle ⟨some df, hist, file⟩ false vin =
              (⟨some (setStatus (setStatus df i "Reserved".toList) i
                "Available".toList), hist, file⟩, false) := by
            simp only [reserve_vehicle, hfi, hget]
            rw [if_pos hst, if_neg Bool.false_ne_true]
          rw [hres] at hsucc
          exact (Bool.false_ne_true hsucc).elim
        | true =>
          have hreserved : setStatus df i "Reserved".toList =
              df.set i { v with status := "Reserved".toList } := by
            simp only [setStatus, hget]
          have hres : reserve_vehicle ⟨some df, hist, file⟩ true vin =
              (⟨some (df.set i { v with status := "Reserved".toList }), hist,
                df.set i { v with status := "Reserved".toList }⟩, true) := by
            simp only [reserve_vehicle, hfi, hget]
            rw [if_pos hst, if_pos trivial, hreserved]
          rw [hres]
          refine ⟨i, v, rfl, hget, hst, rfl, fun j hj => ?_⟩
          exact List.getElem?_set_ne (fun he => hj he.symm)
      · have hres : reserve_vehicle ⟨some df, hist, file⟩ b vin =
            (⟨some df, hist, file⟩, false) := by
          simp only [reserve_vehicle, hfi, hget]
          rw [if_neg hst]
        rw [hres] at hsucc
        exact (Bool.false_ne_true hsucc).elim

/-- Concrete instantiation of `C10_reserve_touches_one_row`. -/
theorem C10_reserve_touches_one_row_witness :
    ∃ i v, firstMatchIdx (vinMatches "VIN200".toList)
        [sampleVehicle, sampleVehicle2] = some i ∧
      [sampleVehicle, sampleVehicle2][i]? = some v ∧
      v.status = "Available".toList ∧
      (reserve_vehicle samplePairState true "VIN200".toList).1.inventory_df =
        some ([sampleVehicle, sampleVehicle2].set i
          { v with status := "Reserved".toList }) ∧
      ∀ j, j ≠ i →
        ([sampleVehicle, sampleVehicle2].set i
          { v with status := "Reserved".toList })[j]? =
          [sampleVehicle, sampleVehicle2][j]? :=
  C10_reserve_touches_one_row samplePairState [sampleVehicle, sampleVehicle2]
    true "VIN200".toList rfl (by decide)

/-- C6: when a required column is missing the load fails, clearing the
in-memory table, and every subsequent operation degrades: search
returns the empty list, VIN lookup returns not-found, reserve returns
failure, and the statistics call returns the empty aggregate — none of
them raises. -/
theorem C6_load_failure_degrades (s : ManagerState) (t : RawTable)
    (hmiss : required_columns.filter (fun c => !(t.columns.contains c)) ≠ []) :
    load_inventory s t = ({ s with inventory_df := none }, false) ∧
    (∀ q n, intelligent_search { s with inventory_df := none } q n =
      ({ s with inventory_df := none }, [])) ∧
    (∀ vin, get_car_by_vin { s with inventory_df := none } vin = none) ∧
    (∀ b vin, reserve_vehicle { s with inventory_df := none } b vin =
      ({ s with inventory_df := none }, false)) ∧
    get_inventory_stats { s with inventory_df := none } = none := by
  refine ⟨?_, fun q n => rfl, fun vin => rfl, fun b vin => rfl, rfl⟩
  have hne : (required_columns.filter
      (fun c => !(t.columns.contains c))).isEmpty = false := by
    cases hcase : required_columns.filter (fun c => !(t.columns.contains c)) with
    | nil => exact absurd hcase hmiss
    | cons a l => rfl
  simp only [load_inventory, hne, Bool.not_false]
  rw [if_pos trivial]

/-- The raw source used for the degradation sample: it has no columns
at all, so every required column is missing. -/
def headerlessTable : RawTable := { columns := [], rows := [] }

/-- Concrete instantiation of `C6_load_failure_degrades`. -/
theorem C6_load_failure_degrades_witness :
    load_inventory sampleState headerlessTable =
      ({ sampleState with inventory_df := none }, false) ∧
    (∀ q n, intelligent_search { sampleState with inventory_df := none } q n =
      ({ sampleState with inventory_df := none }, [])) ∧
    (∀ vin, get_car_by_vin { sampleState with inventory_df := none } vin = none) ∧
    (∀ b vin, reserve_vehicle { sampleState with inventory_df := none } b vin =
      ({ sampleState with inventory_df := none }, false)) ∧
    get_inventory_stats { sampleState with inventory_df := none } = none :=
  C6_load_failure_degrades sampleState headerlessTable (by decide)

/-- C7: the literal low-mileage phrases do map to the fixed 20000
ceiling, but the explicit under-N-km phrase maps to nothing: the code
extracts the digits from the constant pattern string
`menos de (\d+) km` — which contains no digit — instead of from the
query, so `max_mileage` is never set by that rule (the price rule
`menos de (\d+)` captures the number as `max_price` instead). -/
theorem C7_mileage_parsing_divergence :
    (parse_search_query "pocos kilómetros".toList).max_mileage = some 20000 ∧
    (parse_search_query "bajo kilometraje".toList).max_mileage = some 20000 ∧
    (parse_search_query "menos de 30000 km".toList).max_mileage = none ∧
    (parse_search_query "menos de 30000 km".toList).max_price = some 30000 ∧
    firstDigitRun mileagePattern3 = none ∧
    firstDigitRun mileagePattern4 = none := by decide

/-- C8 counterexample: a bracketed body-style cell that is not valid
JSON does not degrade to the empty list — the parse returns the
one-element list holding the raw cell. -/
theorem C8_malformed_cell_counterexample :
    parse_body_styles (some "[oops".toList) = ["[oops".toList] ∧
    parse_body_styles (some "[oops".toList) ≠ ([] : List Chars) := by decide

/-- C8 (amended): an absent/null features or body-styles cell degrades
to the empty list; a bracketed body-style cell that fails JSON parsing
— like any non-bracketed cell — degrades to the one-element list
holding the raw cell; and no row content can fail the load: with every
required column present, loading succeeds whatever the rows hold. -/
theorem C8_per_row_degradation (s : ManagerState) (t : RawTable)
    (hcols : required_columns.filter (fun c => !(t.columns.contains c)) = []) :
    parse_features none = [] ∧
    parse_body_styles none = [] ∧
    (∀ str, startsWithBracket str = true →
      jsonListParse (replaceQuote str) = none →
      parse_body_styles (some str) = [str]) ∧
    (∀ str, startsWithBracket str = false →
      parse_body_styles (some str) = [str]) ∧
    (load_inventory s t).2 = true := by
  refine ⟨rfl, rfl, fun str hb hj => ?_, fun str hb => ?_, ?_⟩
  · simp [parse_body_styles, hb, hj]
  · simp [parse_body_styles, hb]
  · have hempty : (required_columns.filter
        (fun c => !(t.columns.contains c))).isEmpty = true := by
      rw [hcols]
      rfl
    simp only [load_inventory, hempty, Bool.not_true]
    rw [if_neg Bool.false_ne_true]

/-- A raw source carrying every required column and an unparsable
body-styles cell. -/
def sampleRawRow : RawRow :=
  { year := 2020, make := "Toyota".toList, model := "Corolla".toList,
    body_styles := some "[oops".toList, color := "Rojo".toList,
    mileage := 30000, price := 18000, fuel_type := "Gasolina".toList,
    engine := "1.8L".toList, transmission := "Manual".toList,
    safety_rating := 4, trunk_space_liters := 400, features := none,
    condition := "Bueno".toList, location := "Madrid".toList,
    vin := "VIN100".toList, status := none }

def fullColumnTable : RawTable :=
  { columns := required_columns, rows := [sampleRawRow] }

/-- Concrete instantiation of `C8_per_row_degradation`. -/
theorem C8_per_row_degradation_witness :
    parse_features none = [] ∧
    parse_body_styles (some "[oops".toList) = ["[oops".toList] ∧
    (load_inventory sampleState fullColumnTable).2 = true := by
  have h := C8_per_row_degradation sampleState fullColumnTable (by decide)
  exact ⟨h.1, h.2.2.1 "[oops".toList (by decide) (by decide), h.2.2.2.2⟩

def scoredSampleA : ScoredRow :=
  { idx := 0, vehicle := sampleVehicle, relevance_score := 1, match_reasons := [] }

def scoredSampleB : ScoredRow :=
  { idx := 1, vehicle := sampleVehicle2, relevance_score := 1, match_reasons := [] }

def scoredSampleC : ScoredRow :=
  { idx := 2, vehicle := sampleReserved, relevance_score := 5, match_reasons := [] }


/-! ### The sort-kernel contract

`df.sort_values(...)` runs numpy's default `kind='quicksort'` argsort
kernel inside pandas `nargsort`.  That kernel is introsort: on
partitions of at most 16 elements it is a stable insertion sort, above
that it is a quicksort whose handling of equal keys is unspecified (and
numpy documents the kind as not stable).  The predicate below states
exactly what the program may rely on; tie-order facts are proved only
from it. -/

theorem insortScore_perm (x : ScoredRow) (l : List ScoredRow) :
    List.Perm (insortScore x l) (x :: l) := by
  induction l with
  | nil => exact List.Perm.refl _
  | cons y t ih =>
    by_cases hxy : x.relevance_score ≤ y.relevance_score
    · rw [insortScore, if_pos hxy]
    · rw [insortScore, if_neg hxy]
      exact (ih.cons y).trans (List.Perm.swap x y t)

theorem sortScoreAsc_perm (l : List ScoredRow) :
    List.Perm (sortScoreAsc l) l := by
  induction l with
  | nil => exact List.Perm.refl _
  | cons x t ih => exact (insortScore_perm x (sortScoreAsc t)).trans (ih.cons x)

/-- An ascending insertion sort that places an element *after* the
equal-score elements already in place — equally ascending, but it
reverses the relative order of equal keys. -/
def insortScoreLate (x : ScoredRow) : List ScoredRow → List ScoredRow
  | [] => [x]
  | y :: t =>
    if x.relevance_score < y.relevance_score then x :: y :: t
    else y :: insortScoreLate x t

def sortScoreAscLate : List ScoredRow → List ScoredRow
  | [] => []
  | x :: t => insortScoreLate x (sortScoreAscLate t)

theorem mem_insortScoreLate {a x : ScoredRow} {l : List ScoredRow} :
    a ∈ insortScoreLate x l ↔ a = x ∨ a ∈ l := by
  induction l with
  | nil => simp [insortScoreLate]
  | cons y t ih =>
    by_cases hxy : x.relevance_score < y.relevance_score
    · rw [insortScoreLate, if_pos hxy]
      simp only [List.mem_cons]
    · rw [insortScoreLate, if_neg hxy]
      simp only [List.mem_cons, ih]
      tauto

theorem sorted_insortScoreLate {x : ScoredRow} {l : List ScoredRow}
    (h : l.Pairwise (fun a b => a.relevance_score ≤ b.relevance_score)) :
    (insortScoreLate x l).Pairwise
      (fun a b => a.relevance_score ≤ b.relevance_score) := by
  induction l with
  | nil => simp [insortScoreLate]
  | cons y t ih =>
    rw [List.pairwise_cons] at h
    by_cases hxy : x.relevance_score < y.relevance_score
    · rw [insortScoreLate, if_pos hxy]
      refine List.pairwise_cons.mpr ⟨?_, List.pairwise_cons.mpr h⟩
      intro b hb
      rcases List.mem_cons.mp hb with hb | hb
      · exact hb ▸ le_of_lt hxy
      · exact le_trans (le_of_lt hxy) (h.1 b hb)
    · rw [insortScoreLate, if_neg hxy]
      refine List.pairwise_cons.mpr ⟨?_, ih h.2⟩
      intro b hb
      rcases mem_insortScoreLate.mp hb with hb | hb
      · exact hb ▸ le_of_not_lt hxy
      · exact h.1 b hb

theorem sorted_sortScoreAscLate (l : List ScoredRow) :
    (sortScoreAscLate l).Pairwise
      (fun a b => a.relevance_score ≤ b.relevance_score) := by
  induction l with
  | nil => simp [sortScoreAscLate]
  | cons x t ih => exact sorted_insortScoreLate ih

theorem insortScoreLate_perm (x : ScoredRow) (l : List ScoredRow) :
    List.Perm (insortScoreLate x l) (x :: l) := by
  induction l with
  | nil => exact List.Perm.refl _
  | cons y t ih =>
    by_cases hxy : x.relevance_score < y.relevance_score
    · rw [insortScoreLate, if_pos hxy]
    · rw [insortScoreLate, if_neg hxy]
      exact (ih.cons y).trans (List.Perm.swap x y t)

theorem sortScoreAscLate_perm (l : List ScoredRow) :
    List.Perm (sortScoreAscLate l) l := by
  induction l with
  | nil => exact List.Perm.refl _
  | cons x t ih =>
    exact (insortScoreLate_perm x (sortScoreAscLate t)).trans (ih.cons x)

/-- The kernel-generic form of pandas `nargsort` for `ascending=False`:
reverse the rows, apply the ascending argsort kernel, reverse the
resulting order.  `sortValuesDesc` is its `sortScoreAsc` instance. -/
def sortValuesDescWith (K : List ScoredRow → List ScoredRow)
    (l : List ScoredRow) : List ScoredRow :=
  (K l.reverse).reverse

/-- The contract of numpy's default argsort kernel: the output is
sorted ascending by score, is a permutation of the input, and on
arrays of at most 16 elements — where introsort runs its insertion
sort — it is exactly the stable `sortScoreAsc`.  Above that threshold
nothing is guaranteed about the relative order of equal keys. -/
def AscSortKernel (K : List ScoredRow → List ScoredRow) : Prop :=
  (∀ l, (K l).Pairwise (fun a b => a.relevance_score ≤ b.relevance_score)) ∧
  (∀ l, List.Perm (K l) l) ∧
  (∀ l, l.length ≤ 16 → K l = sortScoreAsc l)

theorem sortScoreAsc_conforms : AscSortKernel sortScoreAsc :=
  ⟨sorted_sortScoreAsc, sortScoreAsc_perm, fun _ _ => rfl⟩

/-- A kernel conforming to `AscSortKernel` that reorders equal keys on
arrays above the insertion-sort threshold.  Its existence shows that
the sort contract the program runs under does not pin down tie
order. -/
def tieReversingKernel (l : List ScoredRow) : List ScoredRow :=
  if l.length ≤ 16 then sortScoreAsc l else sortScoreAscLate l

theorem tieReversingKernel_conforms : AscSortKernel tieReversingKernel := by
  refine ⟨fun l => ?_, fun l => ?_, fun l hl => ?_⟩
  · by_cases hl : l.length ≤ 16
    · rw [tieReversingKernel, if_pos hl]
      exact sorted_sortScoreAsc l
    · rw [tieReversingKernel, if_neg hl]
      exact sorted_sortScoreAscLate l
  · by_cases hl : l.length ≤ 16
    · rw [tieReversingKernel, if_pos hl]
      exact sortScoreAsc_perm l
    · rw [tieReversingKernel, if_neg hl]
      exact sortScoreAscLate_perm l
  · rw [tieReversingKernel, if_pos hl]

/-- A scored row with the given index label and score, over the sample
vehicle. -/
def cexRow (k : Nat) (sc : ℚ) : ScoredRow :=
  { idx := k, vehicle := sampleVehicle, relevance_score := sc,
    match_reasons := [] }

def cexTiedA : ScoredRow := cexRow 15 0

def cexTiedB : ScoredRow := cexRow 16 0

/-- A seventeen-row scored frame — one past the insertion-sort
threshold — whose last two rows have equal scores, in filter-stage
order `cexTiedA` before `cexTiedB`. -/
def cexScored : List ScoredRow :=
  [cexRow 0 1, cexRow 1 2, cexRow 2 3, cexRow 3 4, cexRow 4 5, cexRow 5 6,
   cexRow 6 7, cexRow 7 8, cexRow 8 9, cexRow 9 10, cexRow 10 11,
   cexRow 11 12, cexRow 12 13, cexRow 13 14, cexRow 14 15, cexTiedA,
   cexTiedB]

/-- C5 counterexample: the claim's universal stable-tie-breaking
conjunct fails on the program's sort contract.  On a seventeen-row
frame, a kernel conforming to everything numpy's default quicksort
argsort guarantees (`tieReversingKernel`) makes the descending sort
return the two equal-score rows in the reverse of their filter-stage
order — so the pair is provably not a sublist of the output in its
original order. -/
theorem C5_stable_ties_counterexample :
    AscSortKernel tieReversingKernel ∧
    cexScored.length = 17 ∧
    cexScored.indexOf cexTiedA < cexScored.indexOf cexTiedB ∧
    cexTiedA.relevance_score = cexTiedB.relevance_score ∧
    List.Pairwise (fun a b : ScoredRow => b.relevance_score ≤ a.relevance_score)
      (sortValuesDescWith tieReversingKernel cexScored) ∧
    (sortValuesDescWith tieReversingKernel cexScored).indexOf cexTiedB <
      (sortValuesDescWith tieReversingKernel cexScored).indexOf cexTiedA ∧
    ¬ List.Sublist [cexTiedA, cexTiedB]
      (sortValuesDescWith tieReversingKernel cexScored) :=
  ⟨tieReversingKernel_conforms, by decide, by decide, by decide, by decide,
   by decide, by decide⟩

/-- C5 (amended): for every kernel satisfying the sort contract, the
search results are sorted by `match_score` in descending order; rows
with equal scores keep their filter-stage relative order whenever the
scored frame is within the insertion-sort regime (at most 16 rows) —
above that threshold the default quicksort kernel leaves tie order
unguaranteed.  `sortValuesDesc`, the instance the pipeline model uses,
is the stable-kernel member of that family. -/
theorem C5_sorted_descending_conditional_ties
    (s : ManagerState) (q : Chars) (n : Nat)
    (K : List ScoredRow → List ScoredRow) (hK : AscSortKernel K) :
    List.Pairwise (fun a b => b.match_score ≤ a.match_score)
      (intelligent_search s q n).2 ∧
    (∀ l, List.Pairwise
      (fun a b : ScoredRow => b.relevance_score ≤ a.relevance_score)
      (sortValuesDescWith K l)) ∧
    (∀ l (x y : ScoredRow), l.length ≤ 16 → List.Sublist [x, y] l →
      x.relevance_score = y.relevance_score →
      List.Sublist [x, y] (sortValuesDescWith K l)) ∧
    sortValuesDesc = sortValuesDescWith sortScoreAsc := by
  refine ⟨?_, fun l => ?_, fun l x y hlen hsub heq => ?_, funext fun l => rfl⟩
  · unfold intelligent_search
    cases s.inventory_df with
    | none => simp
    | some df =>
      simp only
      by_cases hdf : df.isEmpty
      · rw [if_pos hdf]; simp
      · rw [if_neg hdf]
        by_cases hact : (activeView df).isEmpty
        · rw [if_pos hact]; simp
        · rw [if_neg hact]
          simp only [convert_to_search_results]
          refine List.pairwise_map.mpr ?_
          refine List.Pairwise.sublist (List.take_sublist n _) ?_
          exact sorted_sortValuesDesc _
  · rw [sortValuesDescWith, List.pairwise_reverse]
    exact hK.1 l.reverse
  · have h16 : l.reverse.length ≤ 16 := by simpa using hlen
    rw [sortValuesDescWith, hK.2.2 l.reverse h16]
    exact tie_sublist_sortValuesDesc hsub heq

/-- Concrete instantiation of `C5_sorted_descending_conditional_ties`
at the stable kernel: the sample search is sorted descending, and on a
three-row frame two equal-score rows keep their filter-stage order. -/
theorem C5_sorted_descending_conditional_ties_witness :
    List.Pairwise (fun a b => b.match_score ≤ a.match_score)
      (intelligent_search samplePairState [] 10).2 ∧
    List.Sublist [scoredSampleA, scoredSampleB]
      (sortValuesDescWith sortScoreAsc
        [scoredSampleC, scoredSampleA, scoredSampleB]) := by
  have h := C5_sorted_descending_conditional_ties samplePairState [] 10
    sortScoreAsc sortScoreAsc_conforms
  exact ⟨h.1, h.2.2.1 [scoredSampleC, scoredSampleA, scoredSampleB]
    scoredSampleA scoredSampleB (by decide)
    (List.Sublist.cons scoredSampleC (List.Sublist.refl _)) rfl⟩
